import Mathlib

/-!
Verification of the classroom-transcripts web app's core logic.

The Python sources are shallowly embedded as pure Lean functions:

* Strings are Lean `String`s; Python `str.lower`, `str.startswith`, slicing
  and the `in` substring test are modelled character-wise over `String.data`
  (the inputs involved — emails, statuses, transcript ids — are ASCII, where
  Python's semantics coincide with per-character operations).
* Each vendor SDK call (AssemblyAI, Azure blob/table) is an explicit
  parameter of type `Except String _`: `.ok` is a successful call, `.error`
  is the call raising an exception.
* Streamlit side effects are tracked explicitly: `OpResult` records whether
  an operation logged an error (`logged`) and showed a user-facing error
  message via `st.error` (`displayed`) alongside its return value.
* Python dicts keyed by strings are association lists read through
  `dict_get`, which returns the value of the *last* binding of a key,
  matching dict assignment order in the sources.
* `st.session_state` is the explicit `SessionState` record.
-/

namespace CT

/-- Character-level model of Python `str.startswith`: does the second list
start with the first? -/
def startsWithChars : List Char → List Char → Bool
  | [], _ => true
  | _ :: _, [] => false
  | a :: as, b :: bs => a == b && startsWithChars as bs

/-- Character-level model of the Python `in` substring test. -/
def containsChars (needle : List Char) : List Char → Bool
  | [] => needle.isEmpty
  | b :: bs => startsWithChars needle (b :: bs) || containsChars needle bs

/-- Model of Python `s.startswith(pre)`. -/
def str_startswith (s pre : String) : Bool := startsWithChars pre.data s.data

/-- Model of Python `sub in hay`. -/
def str_contains (hay sub : String) : Bool := containsChars sub.data hay.data

/-- Model of Python `s.lower()` (per-character lowering; exact for the ASCII
emails and statuses this app handles). -/
def lowerStr (s : String) : String := String.mk (s.data.map Char.toLower)

/-- Model of Python slicing `s[:n]`. -/
def strTake (s : String) (n : Nat) : String := String.mk (s.data.take n)

theorem charToLower_idem (c : Char) : Char.toLower (Char.toLower c) = Char.toLower c := by
  simp only [Char.toLower]
  by_cases h : c.toNat ≥ 65 ∧ c.toNat ≤ 90
  · rw [if_pos h]
    obtain ⟨h1, h2⟩ := h
    generalize c.toNat = n at h1 h2
    interval_cases n <;> decide
  · rw [if_neg h, if_neg h]

theorem lowerStr_idem (s : String) : lowerStr (lowerStr s) = lowerStr s := by
  unfold lowerStr
  refine congrArg String.mk ?_
  show (s.data.map Char.toLower).map Char.toLower = s.data.map Char.toLower
  rw [List.map_map]
  exact List.map_congr_left fun c _ => charToLower_idem c

/-- Python dict read (`d.get(k)`): the value of the last binding of `k` in
the association list, mirroring overwriting assignment order. -/
def dict_get (entries : List (String × String)) (k : String) : Option String :=
  match entries with
  | [] => none
  | (a, b) :: rest =>
      match dict_get rest k with
      | some v => some v
      | none => if a = k then some b else none

theorem dict_get_mem {entries : List (String × String)} {k v : String}
    (h : dict_get entries k = some v) : (k, v) ∈ entries := by
  induction entries with
  | nil => simp [dict_get] at h
  | cons hd tl ih =>
      obtain ⟨a, b⟩ := hd
      rw [dict_get] at h
      cases htl : dict_get tl k with
      | some w =>
          rw [htl] at h
          exact List.mem_cons_of_mem _ (ih (htl.trans (by injection h with h'; rw [h'])))
      | none =>
          rw [htl] at h
          by_cases hak : a = k
          · rw [if_pos hak] at h
            injection h with h'
            rw [← hak, ← h']
            exact List.mem_cons_self _ _
          · rw [if_neg hak] at h
            cases h

/-! ## `scripts/delete_transcript.py`: `truncate_text` and `paginate` -/

/-- From `truncate_text` in `scripts/delete_transcript.py`: truncate `text`
to `max_length` characters and add an ellipsis if needed; `None` or the
empty string come back as `""`. -/
def truncate_text (text : Option String) (max_length : Nat) : String :=
  match text with
  | none => ""
  | some t =>
      if t = "" then ""
      else if t.length ≤ max_length then t
      else strTake t max_length ++ "..."

/-- From `paginate` in `scripts/delete_transcript.py`:
`items[(page-1)*items_per_page : page*items_per_page]`. -/
def paginate {α : Type} (items : List α) (page : Nat) (items_per_page : Nat) : List α :=
  (items.drop ((page - 1) * items_per_page)).take items_per_page

/-- Concatenation of the pages `1, 2, ..., k` produced by `paginate`. -/
def pages_concat {α : Type} (items : List α) (items_per_page : Nat) (k : Nat) : List α :=
  ((List.range k).map (fun i => paginate items (i + 1) items_per_page)).flatten

/-- The reconstruction property claimed of `paginate`: concatenating the
results for pages 1, 2, 3, ... (some finite number of them) gives back the
input list exactly. -/
def paginate_reconstructs {α : Type} (items : List α) (items_per_page : Nat) : Prop :=
  ∃ k, pages_concat items items_per_page k = items

theorem pages_concat_eq_take {α : Type} (items : List α) (items_per_page : Nat) :
    ∀ k, pages_concat items items_per_page k = items.take (k * items_per_page) := by
  intro k
  induction k with
  | zero => simp [pages_concat]
  | succ k ih =>
      rw [pages_concat, List.range_succ, List.map_append, List.flatten_append]
      rw [pages_concat] at ih
      rw [ih]
      show items.take (k * items_per_page) ++ (paginate items (k + 1) items_per_page ++ []) =
        items.take ((k + 1) * items_per_page)
      rw [List.append_nil, paginate, Nat.add_sub_cancel, Nat.succ_mul, List.take_add]

/-- C10: truncate_text is total and bounds its output: `None` or empty input
gives `""`; a string no longer than `max_length` is returned unchanged; a
longer string becomes its first `max_length` characters followed by `"..."`,
of length exactly `max_length + 3`; and applying `truncate_text` twice with
the same `max_length` equals applying it once. -/
theorem truncate_text_spec (t : String) (m : Nat) (o : Option String) :
    truncate_text none m = ""
    ∧ truncate_text (some "") m = ""
    ∧ (t.length ≤ m → truncate_text (some t) m = t)
    ∧ (m < t.length →
        truncate_text (some t) m = strTake t m ++ "..."
        ∧ (truncate_text (some t) m).length = m + 3)
    ∧ truncate_text (some (truncate_text o m)) m = truncate_text o m := by
  have hshort : ∀ s : String, s.length ≤ m → truncate_text (some s) m = s := by
    intro s hs
    by_cases hnil : s = ""
    · rw [truncate_text, if_pos hnil, hnil]
    · rw [truncate_text, if_neg hnil, if_pos hs]
  have hlong : ∀ s : String, m < s.length →
      truncate_text (some s) m = strTake s m ++ "..." := by
    intro s hs
    have hnil : s ≠ "" := by
      intro hcon
      rw [hcon] at hs
      exact Nat.not_lt_zero m hs
    rw [truncate_text, if_neg hnil, if_neg (not_le.mpr hs)]
  have hdata : ∀ s : String, m < s.length →
      (strTake s m ++ "...").data = s.data.take m ++ ['.', '.', '.'] := by
    intro s _
    rw [String.data_append]
    rfl
  have hlen : ∀ s : String, m < s.length → (strTake s m ++ "...").length = m + 3 := by
    intro s hs
    show (strTake s m ++ "...").data.length = m + 3
    rw [hdata s hs, List.length_append, List.length_take]
    have : m ⊓ s.data.length = m := min_eq_left (le_of_lt hs)
    rw [this]
    rfl
  refine ⟨rfl, rfl, hshort t, fun hm => ⟨hlong t hm, by rw [hlong t hm]; exact hlen t hm⟩, ?_⟩
  cases o with
  | none => rfl
  | some s =>
      by_cases hnil : s = ""
      · have h0 : truncate_text (some "") m = "" := by rw [truncate_text, if_pos rfl]
        rw [hnil, h0, h0]
      · by_cases hs : s.length ≤ m
        · rw [hshort s hs, hshort s hs]
        · have hm : m < s.length := not_le.mp hs
          rw [hlong s hm]
          set r : String := strTake s m ++ "..." with hr
          have hrdata : r.data = s.data.take m ++ ['.', '.', '.'] := hdata s hm
          have hrlen : r.length = m + 3 := hlen s hm
          have hrne : r ≠ "" := by
            intro hcon
            have : r.data = [] := by rw [hcon]
            rw [hrdata] at this
            rcases List.append_eq_nil.mp this with ⟨-, h2⟩
            cases h2
          have hrlong : m < r.length := by
            rw [hrlen]
            omega
          rw [hlong r hrlong]
          refine congrArg (· ++ "...") ?_
          show String.mk (r.data.take m) = String.mk (s.data.take m)
          refine congrArg String.mk ?_
          rw [hrdata]
          have htk : (s.data.take m).length = m := by
            rw [List.length_take]
            exact min_eq_left (le_of_lt hm)
          calc (s.data.take m ++ ['.', '.', '.']).take m
              = (s.data.take m ++ ['.', '.', '.']).take (s.data.take m).length := by rw [htk]
            _ = s.data.take m := List.take_left _ _

/-- C10 witness at a concrete input. -/
theorem truncate_text_spec_witness :
    truncate_text none 5 = ""
    ∧ truncate_text (some "") 5 = ""
    ∧ ((("abc" : String)).length ≤ 5 → truncate_text (some "abc") 5 = "abc")
    ∧ (5 < (("abc" : String)).length →
        truncate_text (some "abc") 5 = strTake "abc" 5 ++ "..."
        ∧ (truncate_text (some "abc") 5).length = 5 + 3)
    ∧ truncate_text (some (truncate_text (some "abcdefgh") 5)) 5
        = truncate_text (some "abcdefgh") 5 :=
  truncate_text_spec "abc" 5 (some "abcdefgh")

/-- C8 as stated is false at `items_per_page = 0`: every page of `[0]` is
empty, so no concatenation of pages reconstructs the list. -/
theorem paginate_claim_counterexample : ¬ paginate_reconstructs ([0] : List Nat) 0 := by
  rintro ⟨k, hk⟩
  have h : pages_concat ([0] : List Nat) 0 k = [] := by
    rw [pages_concat_eq_take, Nat.mul_zero]
    rfl
  rw [h] at hk
  cases hk

/-- C8 (amended to `items_per_page ≥ 1`): `paginate` returns the contiguous
slice from `(page-1)*items_per_page` to `page*items_per_page`: at most
`items_per_page` elements, an order-preserving sublist of the input, and
concatenating pages 1, 2, ..., k reconstructs the input once
`k * items_per_page` covers its length (so reconstruction always succeeds
for positive `items_per_page`). -/
theorem paginate_spec {α : Type} (items : List α) (page items_per_page : Nat)
    (_hpage : 1 ≤ page) (hipp : 1 ≤ items_per_page) :
    (paginate items page items_per_page).length ≤ items_per_page
    ∧ (paginate items page items_per_page).Sublist items
    ∧ (∀ k, items.length ≤ k * items_per_page → pages_concat items items_per_page k = items)
    ∧ paginate_reconstructs items items_per_page := by
  refine ⟨?_, ?_, ?_, ?_⟩
  · rw [paginate, List.length_take]
    exact inf_le_left
  · exact (List.take_sublist _ _).trans (List.drop_sublist _ _)
  · intro k hk
    rw [pages_concat_eq_take]
    exact List.take_of_length_le hk
  · refine ⟨items.length, ?_⟩
    rw [pages_concat_eq_take]
    refine List.take_of_length_le ?_
    exact Nat.le_mul_of_pos_right _ (Nat.lt_of_lt_of_le Nat.zero_lt_one hipp)

/-- C8 witness at a concrete input. -/
theorem paginate_spec_witness :
    (paginate [10, 20, 30] 2 2).length ≤ 2
    ∧ (paginate [10, 20, 30] 2 2).Sublist [10, 20, 30]
    ∧ (∀ k, ([10, 20, 30] : List Nat).length ≤ k * 2 → pages_concat [10, 20, 30] 2 k = [10, 20, 30])
    ∧ paginate_reconstructs ([10, 20, 30] : List Nat) 2 :=
  paginate_spec [10, 20, 30] 2 2 (by decide) (by decide)

/-! ## Data model: upload records and vendor transcripts -/

/-- An upload record: one row of the Azure table (`src/src/upload.py`
`store_mapping_in_table`, read back by `transcript_list_view.py`).
`serviceTimestamp` is the table service's own `Timestamp` column used as a
fallback when `uploadTime` is absent; times are kept as abstract epoch
values (timezone rendering is display-only). -/
structure UploadEntity where
  uploaderEmail : String
  transcriptId : Option String
  blobSize : Option Nat
  rowKey : String
  uploadTime : Option Int
  serviceTimestamp : Option Int
deriving DecidableEq

/-- A vendor-side transcript as returned by `transcriber.list_transcripts`:
its id and its vendor-reported status value. -/
structure VendorTranscript where
  id : String
  status : String
deriving DecidableEq

/-- Result of one wrapped vendor-call operation: whether it logged an error,
whether it displayed a user-facing error message (`st.error`), and its
return value. -/
structure OpResult (α : Type) where
  logged : Bool
  displayed : Bool
  result : α
deriving DecidableEq

/-- The fallback date `datetime(2000, 1, 1, tzinfo=pytz.UTC)` as an epoch
value (`MIN_DATE` in `load_table_data`). -/
def MIN_DATE : Int := 946684800

/-! ## `src/src/transcript_list_view.py` -/

/-- From `is_admin`: the lowercased email is a member of `ADMIN_EMAILS`
(which the page builds already stripped and lowercased). -/
def is_admin (ADMIN_EMAILS : List String) (email : String) : Bool :=
  ADMIN_EMAILS.contains (lowerStr email)

/-- From `can_view_transcript`: admins see everything; a record with no
uploader email is admin-only; otherwise emails must match case-insensitively. -/
def can_view_transcript (ADMIN_EMAILS : List String)
    (transcript_email user_email : String) : Bool :=
  if is_admin ADMIN_EMAILS user_email then true
  else if transcript_email = "" then false
  else lowerStr transcript_email == lowerStr user_email

/-- Azure `table_client.query_entities` with the OData filter
`uploaderEmail eq '<emailValue>'`: exact (case-sensitive) string equality
against the stored column. -/
def query_entities (table : List UploadEntity) (emailValue : String) : List UploadEntity :=
  table.filter (fun ent => ent.uploaderEmail == emailValue)

/-- From `utils/view_table.list_table_items`: every row of the table. -/
def list_table_items (table : List UploadEntity) : List UploadEntity := table

/-- From `query_table_entities`: empty email yields nothing; a non-admin
gets the rows matching `uploaderEmail eq '<user_email.lower()>'`; an admin
gets every row. (The `except` branch returning `[]` on a table error is the
vendor call raising, not modelled as it needs no claim.) -/
def query_table_entities (ADMIN_EMAILS : List String) (table : List UploadEntity)
    (user_email : String) : List UploadEntity :=
  if user_email = "" then []
  else if !(is_admin ADMIN_EMAILS user_email) then query_entities table (lowerStr user_email)
  else list_table_items table

/-- The `test_` override both status readers apply: ids starting with
`test_` are reported `completed`, others keep the vendor-reported status. -/
def statusOverride (t : VendorTranscript) : String :=
  if str_startswith t.id "test_" then "completed" else t.status

/-- From `get_transcript_statuses`: one `list_transcripts` call builds the
id-to-status dict, applying the `test_` override per entry; on the vendor
call raising, the error is logged (without `st.error`) and `{}` returned. -/
def get_transcript_statuses (vendor : Except String (List VendorTranscript)) :
    OpResult (List (String × String)) :=
  match vendor with
  | .ok page => ⟨false, false, page.map (fun t => (t.id, statusOverride t))⟩
  | .error _ => ⟨true, false, []⟩

/-- From `get_transcript_status`: a `test_` id is `completed` with no vendor
contact (second component: whether `Transcript.get_by_id` was called);
otherwise the vendor status is returned, and any exception gives `"error"`
(a "not found" message skips the `st.error` display, any other shows it —
both collapse to `"error"` here). -/
def get_transcript_status (transcript_id : String) (fetch : Except String String) :
    String × Bool :=
  if str_startswith transcript_id "test_" then ("completed", false)
  else
    match fetch with
    | .ok statusValue => (statusValue, true)
    | .error _ => ("error", true)

/-- One processed row produced by `load_table_data`: the raw entity plus the
derived display fields (`formatted_size` keeps the raw byte count; the
human-readable unit string is display-only). -/
structure ProcessedItem where
  base : UploadEntity
  formatted_size : Option Nat
  status : String
  previous_status : String
  timestamp : Int
deriving DecidableEq

/-- From `load_table_data`: no verified email yields `[]`; otherwise the
permission-filtered rows are decorated, each status coming from the single
batched status dict (default `"error"` for an unknown id, `"pending"` when
the row has no `transcriptId`). -/
def load_table_data (validated_email : Option String) (ADMIN_EMAILS : List String)
    (table : List UploadEntity) (vendor : Except String (List VendorTranscript)) :
    List ProcessedItem :=
  match validated_email with
  | none => []
  | some email =>
      let items := query_table_entities ADMIN_EMAILS table email
      if items.isEmpty then []
      else
        let transcript_statuses := (get_transcript_statuses vendor).result
        items.map (fun item =>
          let status :=
            match item.transcriptId with
            | some tid => (dict_get transcript_statuses tid).getD "error"
            | none => "pending"
          { base := item
            formatted_size := item.blobSize
            status := status
            previous_status := status
            timestamp :=
              match item.uploadTime with
              | some v => v
              | none => item.serviceTimestamp.getD MIN_DATE })

/-- From `display_transcript_item`: the transcript id passed to
`aai.Transcript.get_by_id` when the item's body fetches the full
transcript; `none` when the function returns early on a missing/empty id or
the status is not `completed`. -/
def display_transcript_item_fetch (item : ProcessedItem) : Option String :=
  match item.base.transcriptId with
  | none => none
  | some tid =>
      if tid = "" then none
      else if item.status = "completed" then some tid
      else none

/-! ## `src/src/upload.py` and `scripts/delete_transcript.py` operations -/

/-- Metadata of a successfully uploaded blob (`upload_to_azure`'s result
dict, reduced to the fields its callers read). -/
structure BlobInfo where
  name : String
  original_name : String
  size : Nat
deriving DecidableEq

/-- From `upload_to_azure`: an uninitialized container logs, displays and
returns `False`; a raised upload logs, displays and returns `False`;
success returns the blob property dict. -/
def upload_to_azure (containerReady : Bool) (vendor : Except String BlobInfo) :
    OpResult (Option BlobInfo) :=
  if !containerReady then ⟨true, true, none⟩
  else
    match vendor with
    | .ok blob => ⟨false, false, some blob⟩
    | .error _ => ⟨true, true, none⟩

/-- The dict `submit_transcription` returns. -/
structure SubmitResult where
  id : String
  file_url : String
  status : String
  error : Option String
deriving DecidableEq

/-- From `submit_transcription`: success wraps the vendor id and status; the
vendor call raising logs, displays (`st.error` plus the details expander)
and returns the `id = "error"` dict. -/
def submit_transcription (url : String) (vendor : Except String (String × String)) :
    OpResult SubmitResult :=
  match vendor with
  | .ok idStatus => ⟨false, false, ⟨idStatus.1, url, idStatus.2, none⟩⟩
  | .error e => ⟨true, true, ⟨"error", url, "error", some e⟩⟩

/-- From `store_mapping_in_table`: success creates the entity; the vendor
call raising logs and then RE-RAISES (`raise` in the `except` block), so the
exception propagates to the caller (an `Except.error` result). -/
def store_mapping_in_table (vendor : Except String Unit) : OpResult (Except String Unit) :=
  match vendor with
  | .ok _ => ⟨false, false, .ok ()⟩
  | .error e => ⟨true, false, .error e⟩

/-- The status dict `delete_transcript` returns. -/
structure DeleteOutcome where
  success : Bool
  message : String
deriving DecidableEq

/-- From `delete_transcript` in `scripts/delete_transcript.py`: missing API
key or a non-200 response or a raised request all return a
`success = False` dict — with no logging call and no `st.error` inside the
operation itself. -/
def delete_transcript (transcript_id : String) (api_key : Option String)
    (vendor : Except String (Nat × String)) : OpResult DeleteOutcome :=
  match api_key with
  | none => ⟨false, false, ⟨false, "ASSEMBLYAI_API_KEY not found in environment or secrets"⟩⟩
  | some _ =>
    match vendor with
    | .ok codeText =>
        if codeText.1 = 200 then
          ⟨false, false, ⟨true, "Successfully deleted transcript " ++ transcript_id⟩⟩
        else
          ⟨false, false, ⟨false, "Error deleting transcript: " ++ codeText.2⟩⟩
    | .error e => ⟨false, false, ⟨false, "Error deleting transcript: " ++ e⟩⟩

/-! ## C1, C2, C9 -/

/-- C1: for a non-admin user (with their verified email), every record
returned by `query_table_entities` — and hence every record the transcript
list page displays — has an `uploaderEmail` equal to the user's email
compared case-insensitively; records of other users never appear. -/
theorem query_table_entities_non_admin_only_own
    (ADMIN_EMAILS : List String) (table : List UploadEntity) (user_email : String)
    (hadmin : is_admin ADMIN_EMAILS user_email = false) :
    (∀ ent ∈ query_table_entities ADMIN_EMAILS table user_email,
        lowerStr ent.uploaderEmail = lowerStr user_email)
    ∧ ∀ vendor, ∀ p ∈ load_table_data (some user_email) ADMIN_EMAILS table vendor,
        lowerStr p.base.uploaderEmail = lowerStr user_email := by
  have hq : ∀ ent ∈ query_table_entities ADMIN_EMAILS table user_email,
      lowerStr ent.uploaderEmail = lowerStr user_email := by
    intro ent hent
    rw [query_table_entities] at hent
    by_cases he : user_email = ""
    · rw [if_pos he] at hent
      cases hent
    · rw [if_neg he, hadmin] at hent
      rw [show (!false) = true from rfl, if_pos rfl] at hent
      rw [query_entities, List.mem_filter] at hent
      have : ent.uploaderEmail = lowerStr user_email := eq_of_beq hent.2
      rw [this, lowerStr_idem]
  refine ⟨hq, ?_⟩
  intro vendor p hp
  rw [load_table_data] at hp
  by_cases hempty : (query_table_entities ADMIN_EMAILS table user_email).isEmpty
  · rw [if_pos hempty] at hp
    cases hp
  · rw [if_neg hempty] at hp
    obtain ⟨item, hitem, hfp⟩ := List.mem_map.mp hp
    have hbase : p.base = item := by rw [← hfp]
    rw [hbase]
    exact hq item hitem

/-- C1 witness: a mixed-case non-admin user over a two-row table. -/
theorem query_table_entities_non_admin_only_own_witness :
    (∀ ent ∈ query_table_entities ["admin@school.org"]
        [⟨"teacher@school.org", some "t1", none, "r1", none, none⟩,
         ⟨"other@school.org", some "t2", none, "r2", none, none⟩]
        "Teacher@School.org",
        lowerStr ent.uploaderEmail = lowerStr "Teacher@School.org")
    ∧ ∀ vendor, ∀ p ∈ load_table_data (some "Teacher@School.org") ["admin@school.org"]
        [⟨"teacher@school.org", some "t1", none, "r1", none, none⟩,
         ⟨"other@school.org", some "t2", none, "r2", none, none⟩] vendor,
        lowerStr p.base.uploaderEmail = lowerStr "Teacher@School.org" :=
  query_table_entities_non_admin_only_own ["admin@school.org"]
    [⟨"teacher@school.org", some "t1", none, "r1", none, none⟩,
     ⟨"other@school.org", some "t2", none, "r2", none, none⟩]
    "Teacher@School.org" (by decide)

/-- C2 counterexample: the claim's uniform pattern fails on the cited
operations themselves — `store_mapping_in_table` propagates the vendor
exception to its caller instead of returning a sentinel,
`get_transcript_statuses` displays no user-facing message, and
`delete_transcript` neither logs nor displays. -/
theorem vendor_error_uniform_pattern_counterexample :
    (store_mapping_in_table (Except.error "boom")).result = Except.error "boom"
    ∧ (get_transcript_statuses (Except.error "boom")).displayed = false
    ∧ (delete_transcript "t1" (some "key") (Except.error "boom")).logged = false
    ∧ (delete_transcript "t1" (some "key") (Except.error "boom")).displayed = false :=
  ⟨rfl, rfl, rfl, rfl⟩

/-- C2 (amended): on a vendor call raising, each wrapped operation returns
its sentinel empty/false/error-status value without propagating — except
`store_mapping_in_table`, which logs and re-raises; and the logging /
user-facing display is not uniform: `upload_to_azure` and
`submit_transcription` log and display, `get_transcript_statuses` logs
without displaying and returns `{}`, `delete_transcript` neither logs nor
displays and returns a `success = False` dict. -/
theorem vendor_error_handling_per_operation (e url transcript_id key : String) :
    upload_to_azure true (Except.error e) = ⟨true, true, none⟩
    ∧ submit_transcription url (Except.error e) = ⟨true, true, ⟨"error", url, "error", some e⟩⟩
    ∧ delete_transcript transcript_id (some key) (Except.error e)
        = ⟨false, false, ⟨false, "Error deleting transcript: " ++ e⟩⟩
    ∧ get_transcript_statuses (Except.error e) = ⟨true, false, []⟩
    ∧ store_mapping_in_table (Except.error e) = ⟨true, false, Except.error e⟩ :=
  ⟨rfl, rfl, rfl, rfl, rfl⟩

/-- C9: a `test_`-prefixed transcript id is reported `completed` without
contacting the vendor: `get_transcript_status` answers immediately (no
`get_by_id` call), and any binding such an id receives in the batch status
dict of `get_transcript_statuses` is `completed`, whatever status the
vendor listed. -/
theorem test_prefix_status_completed :
    (∀ transcript_id fetch, str_startswith transcript_id "test_" = true →
        get_transcript_status transcript_id fetch = ("completed", false))
    ∧ ∀ page tid v, str_startswith tid "test_" = true →
        dict_get (get_transcript_statuses (Except.ok page)).result tid = some v →
        v = "completed" := by
  constructor
  · intro transcript_id fetch h
    unfold get_transcript_status
    rw [if_pos h]
  · intro page tid v h hget
    have hmem := dict_get_mem hget
    rw [get_transcript_statuses] at hmem
    obtain ⟨t, _, hft⟩ := List.mem_map.mp hmem
    have hid : t.id = tid := congrArg Prod.fst hft
    have hv : statusOverride t = v := congrArg Prod.snd hft
    rw [statusOverride, hid, if_pos h] at hv
    exact hv.symm

/-- C9 witness: a test id next to a vendor-reported `queued` status. -/
theorem test_prefix_status_completed_witness :
    get_transcript_status "test_x" (Except.ok "queued") = ("completed", false)
    ∧ "completed" = "completed" :=
  ⟨test_prefix_status_completed.1 "test_x" (Except.ok "queued") (by decide),
   test_prefix_status_completed.2 [⟨"test_x", "queued"⟩] "test_x" "completed" (by decide)
     (by decide)⟩

/-! ## C3, C7: status reconciliation and the transcript-id invariant -/

/-- C3: `load_table_data` reconciles vendor status onto upload records from
the one batched lookup: a record with a `transcriptId` gets the value that
id has in the single status dict (`"error"` when absent), a record without
one gets `"pending"`; and the output depends on the vendor only through
that one batched dict, so no per-record status call participates. -/
theorem load_table_data_batched_status
    (ADMIN_EMAILS : List String) (table : List UploadEntity) (email : String)
    (vendor : Except String (List VendorTranscript)) :
    (load_table_data (some email) ADMIN_EMAILS table vendor).map ProcessedItem.status
      = (query_table_entities ADMIN_EMAILS table email).map (fun item =>
          match item.transcriptId with
          | some tid => (dict_get (get_transcript_statuses vendor).result tid).getD "error"
          | none => "pending")
    ∧ ∀ vendor',
        (get_transcript_statuses vendor).result = (get_transcript_statuses vendor').result →
        load_table_data (some email) ADMIN_EMAILS table vendor
          = load_table_data (some email) ADMIN_EMAILS table vendor' := by
  constructor
  · simp only [load_table_data]
    by_cases hempty : (query_table_entities ADMIN_EMAILS table email).isEmpty
    · rw [if_pos hempty, List.isEmpty_iff.mp hempty]
      rfl
    · rw [if_neg hempty, List.map_map]
      exact List.map_congr_left fun item _ => rfl
  · intro vendor' hsame
    simp only [load_table_data]
    rw [hsame]

/-- Sample table for concrete witnesses: one row with a transcript id, one
without. -/
def sampleTable : List UploadEntity :=
  [⟨"t@s.org", some "t1", some 1000, "r1", none, none⟩,
   ⟨"t@s.org", none, none, "r2", none, none⟩]

/-- C3 witness: two failed vendor calls produce the same (empty) status
dict, hence identical reconciled output. -/
theorem load_table_data_batched_status_witness :
    load_table_data (some "t@s.org") ["admin@s.org"] sampleTable (Except.error "a")
      = load_table_data (some "t@s.org") ["admin@s.org"] sampleTable (Except.error "b") :=
  (load_table_data_batched_status ["admin@s.org"] sampleTable "t@s.org"
    (Except.error "a")).2 (Except.error "b") rfl

/-- C7: the "transcript ID must exist before status can be queried"
invariant: `display_transcript_item` only ever hands a non-empty id it read
from the record to `Transcript.get_by_id`, and `load_table_data` gives a
record lacking a `transcriptId` the status `"pending"` without any
per-record vendor query (its statuses come from the one batched dict, per
`load_table_data_batched_status`). -/
theorem transcript_id_guard :
    (∀ item tid, display_transcript_item_fetch item = some tid →
        tid ≠ "" ∧ item.base.transcriptId = some tid)
    ∧ ∀ email ADMIN_EMAILS table vendor,
        ∀ p ∈ load_table_data (some email) ADMIN_EMAILS table vendor,
          p.base.transcriptId = none → p.status = "pending" := by
  constructor
  · intro item tid h
    unfold display_transcript_item_fetch at h
    cases hb : item.base.transcriptId with
    | none =>
        rw [hb] at h
        exact absurd (show (none : Option String) = some tid from h) (by simp)
    | some t0 =>
        rw [hb] at h
        have h' : (if t0 = "" then (none : Option String)
            else if item.status = "completed" then some t0 else none) = some tid := h
        by_cases h0 : t0 = ""
        · rw [if_pos h0] at h'; cases h'
        · rw [if_neg h0] at h'
          by_cases hc : item.status = "completed"
          · rw [if_pos hc] at h'
            injection h' with h''
            subst h''
            exact ⟨h0, rfl⟩
          · rw [if_neg hc] at h'; cases h'
  · intro email ADMIN_EMAILS table vendor p hp hnone
    simp only [load_table_data] at hp
    by_cases hempty : (query_table_entities ADMIN_EMAILS table email).isEmpty
    · rw [if_pos hempty] at hp
      cases hp
    · rw [if_neg hempty] at hp
      obtain ⟨item, hitem, hfp⟩ := List.mem_map.mp hp
      have hbase : p.base = item := by rw [← hfp]
      have hstat : p.status =
          match item.transcriptId with
          | some tid => (dict_get (get_transcript_statuses vendor).result tid).getD "error"
          | none => "pending" := by rw [← hfp]
      rw [hbase] at hnone
      rw [hstat, hnone]

/-- Sample processed row for concrete witnesses. -/
def sampleItem : ProcessedItem :=
  ⟨⟨"t@s.org", some "t1", none, "r1", none, none⟩, none, "completed", "completed", 0⟩

/-- C7 witness: a completed row carrying transcript id `t1`. -/
theorem transcript_id_guard_witness :
    ("t1" : String) ≠ "" ∧ sampleItem.base.transcriptId = some "t1" :=
  transcript_id_guard.1 sampleItem "t1" (by decide)

/-! ## C4: status filters -/

/-- A row of the transcript browser in `scripts/delete_transcript.py`
(fields the filters read). -/
structure TranscriptRow where
  id : String
  status : String
  audio_url : Option String
deriving DecidableEq

/-- The search predicate of `filter_transcripts`: the lowercased search term
occurs in the lowercased id, or in the lowercased audio URL when present. -/
def search_matches (search_term : String) (t : TranscriptRow) : Bool :=
  str_contains (lowerStr t.id) (lowerStr search_term)
  || match t.audio_url with
     | some u => str_contains (lowerStr u) (lowerStr search_term)
     | none => false

/-- The `if search_term:` stage of `filter_transcripts`. -/
def apply_search_filter (transcripts : List TranscriptRow) (search_term : String) :
    List TranscriptRow :=
  if search_term ≠ "" then transcripts.filter (search_matches search_term) else transcripts

/-- From `filter_transcripts` in `scripts/delete_transcript.py`: the search
stage followed by the status stage (`status_filter != "All"` keeps rows
whose status equals it exactly). -/
def filter_transcripts (transcripts : List TranscriptRow)
    (search_term status_filter : String) : List TranscriptRow :=
  let filtered := apply_search_filter transcripts search_term
  if status_filter ≠ "All" then filtered.filter (fun t => t.status == status_filter)
  else filtered

/-- From the admin dashboard (`streamlit/pages/admin_dashboard.py`): a
non-empty multiselect keeps rows whose lowercased status is among the
lowercased selections. -/
def status_filter_multiselect (rows : List TranscriptRow) (selected : List String) :
    List TranscriptRow :=
  if selected.isEmpty then rows
  else rows.filter (fun r => (selected.map lowerStr).contains (lowerStr r.status))

theorem apply_search_filter_sublist (transcripts : List TranscriptRow)
    (search_term : String) :
    (apply_search_filter transcripts search_term).Sublist transcripts := by
  rw [apply_search_filter]
  by_cases h : search_term ≠ ""
  · rw [if_pos h]
    exact List.filter_sublist _
  · rw [if_neg h]

/-- C4: a status filter other than `"All"` (and any non-empty multiselect)
narrows the displayed list to the selected statuses: the result is an
order-preserving sublist of the input and every surviving row's status is
among the selections. -/
theorem status_filter_narrows
    (transcripts rows : List TranscriptRow) (search_term status_filter : String)
    (sel : List String) (hsf : status_filter ≠ "All") (hsel : sel ≠ []) :
    (filter_transcripts transcripts search_term status_filter).Sublist transcripts
    ∧ (∀ t ∈ filter_transcripts transcripts search_term status_filter,
        t.status = status_filter)
    ∧ (status_filter_multiselect rows sel).Sublist rows
    ∧ ∀ r ∈ status_filter_multiselect rows sel,
        lowerStr r.status ∈ sel.map lowerStr := by
  have hsingle : filter_transcripts transcripts search_term status_filter
      = (apply_search_filter transcripts search_term).filter
          (fun t => t.status == status_filter) := by
    simp only [filter_transcripts]
    rw [if_pos hsf]
  have hne : ¬(sel.isEmpty = true) := fun h => hsel (List.isEmpty_iff.mp h)
  have hmulti : status_filter_multiselect rows sel
      = rows.filter (fun r => (sel.map lowerStr).contains (lowerStr r.status)) := by
    rw [status_filter_multiselect, if_neg hne]
  refine ⟨?_, ?_, ?_, ?_⟩
  · rw [hsingle]
    exact (List.filter_sublist _).trans (apply_search_filter_sublist transcripts search_term)
  · intro t ht
    rw [hsingle, List.mem_filter] at ht
    exact eq_of_beq ht.2
  · rw [hmulti]
    exact List.filter_sublist _
  · intro r hr
    rw [hmulti, List.mem_filter] at hr
    exact List.mem_of_elem_eq_true hr.2

/-- C4 witness at concrete rows and filters. -/
theorem status_filter_narrows_witness :
    (filter_transcripts [⟨"t1", "completed", none⟩, ⟨"t2", "queued", none⟩] "" "completed").Sublist
        [⟨"t1", "completed", none⟩, ⟨"t2", "queued", none⟩]
    ∧ (∀ t ∈ filter_transcripts [⟨"t1", "completed", none⟩, ⟨"t2", "queued", none⟩]
          "" "completed", t.status = "completed")
    ∧ (status_filter_multiselect [⟨"t1", "completed", none⟩, ⟨"t2", "queued", none⟩]
        ["Completed"]).Sublist [⟨"t1", "completed", none⟩, ⟨"t2", "queued", none⟩]
    ∧ ∀ r ∈ status_filter_multiselect [⟨"t1", "completed", none⟩, ⟨"t2", "queued", none⟩]
          ["Completed"],
        lowerStr r.status ∈ (["Completed"].map lowerStr) :=
  status_filter_narrows [⟨"t1", "completed", none⟩, ⟨"t2", "queued", none⟩]
    [⟨"t1", "completed", none⟩, ⟨"t2", "queued", none⟩] "" "completed" ["Completed"]
    (by decide) (by decide)

/-! ## C5: Load More pagination -/

/-- Initialization of `st.session_state["items_per_page"]`: keep an existing
value, else start at 5. -/
def init_items_per_page (current : Option Nat) : Nat :=
  match current with
  | some n => n
  | none => 5

/-- The slice of `st.session_state` the list page touches. -/
structure SessionState where
  items_per_page : Nat
  current_page : Nat
  timezone : String
deriving DecidableEq

/-- The Load More button handler: `st.session_state["items_per_page"] += 5`
(nothing else changes). -/
def load_more_click (s : SessionState) : SessionState :=
  { s with items_per_page := s.items_per_page + 5 }

/-- From `display_table_data`: the page shows
`items_list[0 : items_per_page]` of the sorted list. -/
def displayed_rows (items_list : List ProcessedItem) (s : SessionState) :
    List ProcessedItem :=
  items_list.take s.items_per_page

/-- C5: `items_per_page` starts at 5; a press of Load More (rendered only
while more rows remain) adds exactly 5 to it, leaves the rest of the
session state unchanged, and the page then shows the first
`min(items_per_page, total_items)` records of the sorted list. -/
theorem load_more_pagination (s : SessionState) (items_list : List ProcessedItem)
    (_hmore : s.items_per_page < items_list.length) :
    init_items_per_page none = 5
    ∧ (load_more_click s).items_per_page = s.items_per_page + 5
    ∧ (load_more_click s).current_page = s.current_page
    ∧ (load_more_click s).timezone = s.timezone
    ∧ displayed_rows items_list (load_more_click s) = items_list.take (s.items_per_page + 5)
    ∧ (displayed_rows items_list (load_more_click s)).length
        = min (s.items_per_page + 5) items_list.length := by
  refine ⟨rfl, rfl, rfl, rfl, rfl, ?_⟩
  rw [displayed_rows, List.length_take]
  rfl

/-- C5 witness: a six-row list viewed with the initial page size. -/
theorem load_more_pagination_witness :
    init_items_per_page none = 5
    ∧ (load_more_click ⟨5, 1, "US/Pacific"⟩).items_per_page = 5 + 5
    ∧ (load_more_click ⟨5, 1, "US/Pacific"⟩).current_page = 1
    ∧ (load_more_click ⟨5, 1, "US/Pacific"⟩).timezone = "US/Pacific"
    ∧ displayed_rows (List.replicate 6 sampleItem) (load_more_click ⟨5, 1, "US/Pacific"⟩)
        = (List.replicate 6 sampleItem).take (5 + 5)
    ∧ (displayed_rows (List.replicate 6 sampleItem)
        (load_more_click ⟨5, 1, "US/Pacific"⟩)).length
        = min (5 + 5) (List.replicate 6 sampleItem).length :=
  load_more_pagination ⟨5, 1, "US/Pacific"⟩ (List.replicate 6 sampleItem) (by decide)

/-! ## C6: the webhook endpoint -/

/-- A speaker turn as the vendor reports it (milliseconds start offset). -/
structure Utterance where
  speaker : String
  start : Nat
  text : String
deriving DecidableEq

/-- The transcript `Transcript.get_by_id` returns, reduced to the fields
`handle_webhook` reads. -/
structure TranscriptData where
  utterances : List Utterance
  audio_url : String
  audio_duration : Nat
deriving DecidableEq

/-- The parsed webhook request body (`req.get_json()`), with the two keys
`handle_webhook` reads; missing keys are `none`. -/
structure WebhookBody where
  status : Option String
  transcript_id : Option String
deriving DecidableEq

/-- Two-digit zero padding, as in the `f"{hours:02d}"` format. -/
def fmt2 (n : Nat) : String := if n < 10 then "0" ++ toString n else toString n

/-- The `HH:MM:SS` timestamp `handle_webhook` renders from a millisecond
start offset. -/
def formatTimestamp (ms : Nat) : String :=
  let s := ms / 1000
  fmt2 (s / 3600) ++ ":" ++ fmt2 ((s % 3600) / 60) ++ ":" ++ fmt2 (s % 60)

/-- One formatted utterance of the persisted JSON blob. -/
structure StoredUtterance where
  timestamp : String
  speaker : String
  text : String
deriving DecidableEq

/-- The `formatted_transcript` list `handle_webhook` builds. -/
def format_utterances (utterances : List Utterance) : List StoredUtterance :=
  utterances.map (fun u => ⟨formatTimestamp u.start, "Speaker " ++ u.speaker, u.text⟩)

/-- The `transcript_data` JSON blob `handle_webhook` persists. -/
structure TranscriptBlob where
  transcript_id : Option String
  status : String
  utterances : List StoredUtterance
  audio_url : String
  duration : Nat
deriving DecidableEq

/-- From `handle_webhook` in `src/src/functions/SubmitTranscription`:
a body that fails to parse gives 500; a non-`completed` status is
acknowledged with 200 and nothing persisted; a `completed` status fetches
the transcript by the body's id (a missing id or a raising fetch falls to
the outer handler, 500) and uploads the JSON blob — a raising storage
upload is swallowed, still returning 200 with nothing persisted. The result
is the HTTP status code and the blob persisted, if any. -/
def handle_webhook (body : Except String WebhookBody)
    (fetch : String → Except String TranscriptData) (storeOk : Bool) :
    Nat × Option TranscriptBlob :=
  match body with
  | .error _ => (500, none)
  | .ok b =>
      if b.status ≠ some "completed" then (200, none)
      else
        match b.transcript_id with
        | none => (500, none)
        | some tid =>
            match fetch tid with
            | .error _ => (500, none)
            | .ok t =>
                let blob : TranscriptBlob :=
                  ⟨some tid, "completed", format_utterances t.utterances,
                    t.audio_url, t.audio_duration⟩
                if storeOk then (200, some blob) else (200, none)

/-- C6: the webhook persists a JSON blob exactly for completion callbacks:
any body whose status is not `"completed"` gets HTTP 200 with nothing
persisted; a `completed` body (with fetch and storage succeeding) gets the
transcript fetched by the body's id, the JSON blob uploaded, and HTTP 200;
a body that fails to parse gets HTTP 500. -/
theorem handle_webhook_spec (fetch : String → Except String TranscriptData)
    (storeOk : Bool) :
    (∀ b : WebhookBody, b.status ≠ some "completed" →
        handle_webhook (Except.ok b) fetch storeOk = (200, none))
    ∧ (∀ b tid t, b.status = some "completed" → b.transcript_id = some tid →
        fetch tid = Except.ok t → storeOk = true →
        handle_webhook (Except.ok b) fetch storeOk
          = (200, some ⟨some tid, "completed", format_utterances t.utterances,
              t.audio_url, t.audio_duration⟩))
    ∧ ∀ e, handle_webhook (Except.error e) fetch storeOk = (500, none) := by
  refine ⟨?_, ?_, fun e => rfl⟩
  · intro b hb
    simp only [handle_webhook]
    rw [if_pos hb]
  · intro b tid t hstatus htid hfetch hstore
    obtain ⟨bs, bt⟩ := b
    simp only at hstatus htid
    subst hstatus
    subst htid
    subst hstore
    simp only [handle_webhook]
    rw [if_neg (fun h => h rfl)]
    show (match fetch tid with
      | .error _ => ((500 : Nat), (none : Option TranscriptBlob))
      | .ok t =>
          if true then
            (200, some ⟨some tid, "completed", format_utterances t.utterances,
              t.audio_url, t.audio_duration⟩)
          else (200, none)) = _
    rw [hfetch]
    rfl

/-- Sample completed transcript for the C6 witness. -/
def sampleTranscript : TranscriptData := ⟨[], "https://x/audio.mp3", 60⟩

/-- Sample vendor fetch for the C6 witness: `t1` exists, all else raises. -/
def sampleFetch : String → Except String TranscriptData :=
  fun tid => if tid = "t1" then Except.ok sampleTranscript else Except.error "not found"

/-- C6 witness: a completion callback for `t1` persists the blob with 200. -/
theorem handle_webhook_spec_witness :
    handle_webhook (Except.ok ⟨some "completed", some "t1"⟩) sampleFetch true
      = (200, some ⟨some "t1", "completed", format_utterances sampleTranscript.utterances,
          sampleTranscript.audio_url, sampleTranscript.audio_duration⟩) :=
  (handle_webhook_spec sampleFetch true).2.1 ⟨some "completed", some "t1"⟩ "t1"
    sampleTranscript rfl rfl rfl rfl

end CT
